import Mathlib

/-!
# Feed pipeline verification

Shallow embedding of the paginated-feed core of the `Kodi93/Site` repository:
the build-time feed builder (`src/tools/build.mjs`: `compactObject`,
`toFeedEntry`, `prepareProduct`, `buildFeedForMode`, `writeFeedData`) and the
runtime feed client (`src/public/assets/feed.js`: `initFeed`, `createFeedCard`,
`appendItems`, `loadPage`, `queueLoad`, `activateMode`).

Modelling conventions: JavaScript strings are Lean `String`s, with the empty
string standing for `undefined`/`null`/missing string values (the code only
ever tests these values for truthiness, and a missing string field and the
empty string are both falsy).  Numbers are `Int` (the numeric fields involved
are integers; `toNumber` coerces non-finite values to 0).  JavaScript `Set`s
are lists kept duplicate-free by an insert-if-absent operation, preserving
insertion order.  DOM contents are lists of nodes.
-/

namespace Site

/-- Whitespace test used to model the JavaScript `String.prototype.trim`. -/
def isWs (c : Char) : Bool := c.isWhitespace

/-- Drop elements satisfying `p` from both ends of a list. -/
def trimEnds (p : α → Bool) (l : List α) : List α :=
  ((l.dropWhile p).reverse.dropWhile p).reverse

/-- Model of the JavaScript `String.prototype.trim`. -/
def jsTrim (s : String) : String := String.mk (trimEnds isWs s.data)

/-- A string is blank when it trims to the empty string (it is empty or
whitespace-only). -/
def isBlank (s : String) : Bool := jsTrim s = ""

/-! ## Builder data model (`src/tools/build.mjs`) -/

/-- A catalog product record.  Fields are the string fields consulted by the
feed pipeline (`prepareProduct`, `toFeedEntry`, `buildFeedForMode`); the empty
string models a missing/undefined/null value.  `updated_at` and `updatedAt`
are distinct keys in the source records and are both consulted. -/
structure Product where
  id : String := ""
  title : String := ""
  url : String := ""
  image : String := ""
  price : String := ""
  brand : String := ""
  category : String := ""
  category_slug : String := ""
  updated_at : String := ""
  updatedAt : String := ""
deriving DecidableEq

/-- The character class `[A-Za-z]` used by the regexes in `titleCase`. -/
def isAsciiAlpha (c : Char) : Bool :=
  (decide ('a' ≤ c) && decide (c ≤ 'z')) || (decide ('A' ≤ c) && decide (c ≤ 'Z'))

/-- The character class `[A-Z]` (the JS test `/[A-Z]/.test(word.slice(1))`). -/
def isUpperAZ (c : Char) : Bool := decide ('A' ≤ c) && decide (c ≤ 'Z')

/-- The replacement callback of `titleCase` applied to one maximal `[A-Za-z]+`
run: keep the word if its tail has an uppercase letter, keep an all-caps word
of length above one, otherwise capitalize the first letter and lowercase the
rest. -/
def wordCase (w : List Char) : List Char :=
  if (w.drop 1).any isUpperAZ then w
  else if 1 < w.length && w = w.map Char.toUpper then w
  else (w.take 1).map Char.toUpper ++ (w.drop 1).map Char.toLower

/-- Apply `f` to every maximal run of `[A-Za-z]` characters, keeping the other
characters in place (the global-regex replace of `titleCase`).  `acc` holds the
current run, reversed. -/
def mapAlphaRuns (f : List Char → List Char) : List Char → List Char → List Char
  | acc, [] => if acc.isEmpty then [] else f acc.reverse
  | acc, c :: cs =>
    if isAsciiAlpha c then mapAlphaRuns f (c :: acc) cs
    else (if acc.isEmpty then [] else f acc.reverse) ++ c :: mapAlphaRuns f [] cs

/-- `titleCase` from `build.mjs`. -/
def titleCase (s : String) : String := String.mk (mapAlphaRuns wordCase [] s.data)

/-- The character class `[-_]`. -/
def isDashUnderscore (c : Char) : Bool := c = '-' || c = '_'

/-- `String(...).replace(/[-_]+/g, " ")`: each maximal run of dashes and
underscores becomes a single space.  `prevDash` records whether the previous
character belonged to such a run. -/
def squashDashesGo : Bool → List Char → List Char
  | _, [] => []
  | prevDash, c :: cs =>
    if isDashUnderscore c then
      (if prevDash then [] else [' ']) ++ squashDashesGo true cs
    else c :: squashDashesGo false cs

/-- The dash/underscore squash applied to a string. -/
def squashDashes (s : String) : String := String.mk (squashDashesGo false s.data)

/-- `formatCategory` from `build.mjs`: the category if present, otherwise the
title-cased `category_slug` with dash/underscore runs turned into spaces,
otherwise the empty string. -/
def formatCategory (p : Product) : String :=
  if p.category ≠ "" then p.category
  else if p.category_slug ≠ "" then titleCase (squashDashes p.category_slug)
  else ""

/-- `compactObject` from `build.mjs`, applied to one string-valued field: the
key is dropped (`none`) when the value is missing (modelled by the empty
string, covering the undefined/null cases) or trims to the empty string;
otherwise the value is kept untrimmed. -/
def compactS (v : String) : Option String := if jsTrim v = "" then none else some v

/-- A serialized feed entry, as produced by `toFeedEntry`: `none` means the
key is absent from the JSON object. -/
structure FeedEntry where
  id : Option String := none
  title : Option String := none
  url : Option String := none
  image : Option String := none
  price : Option String := none
  brand : Option String := none
  category : Option String := none
  updatedAt : Option String := none
deriving DecidableEq

/-- `toFeedEntry` from `build.mjs`: build the compacted entry from a product
record (`updatedAt` is `item.updated_at || item.updatedAt`). -/
def toFeedEntry (p : Product) : FeedEntry :=
  { id := compactS p.id
    title := compactS p.title
    url := compactS p.url
    image := compactS p.image
    price := compactS p.price
    brand := compactS p.brand
    category := compactS (formatCategory p)
    updatedAt := compactS (if p.updated_at ≠ "" then p.updated_at else p.updatedAt) }

/-- `prepareProduct` from `build.mjs`, restricted to the fields the feed
pipeline consults.  `hash` stands for the sha256-prefix helper of `util.mjs`
and `now` for `new Date().toISOString()`; both are inputs of the build.
Returns `none` when the trimmed title, url or image is empty.  The spread
`...raw` keeps `price`, `category_slug` and `updated_at` untouched. -/
def prepareProduct (hash : String → String) (now : String) (raw : Product) :
    Option Product :=
  let title := jsTrim raw.title
  let url := jsTrim raw.url
  let image := jsTrim raw.image
  if title = "" ∨ url = "" ∨ image = "" then none
  else some
    { raw with
      id := if jsTrim raw.id = "" then hash (if url ≠ "" then url else title)
            else jsTrim raw.id
      title := title
      url := url
      image := image
      brand := if raw.brand ≠ "" then jsTrim raw.brand else ""
      category := if raw.category ≠ "" then jsTrim raw.category else raw.category
      updatedAt := if raw.updated_at ≠ "" then raw.updated_at
                   else if raw.updatedAt ≠ "" then raw.updatedAt else now }

/-- The product list built by `main` in `build.mjs`:
`rawItems.map(prepareProduct).filter((item) => item && item.title && item.url)`.
`none` raw records model non-object entries of the input JSON. -/
def mainProducts (hash : String → String) (now : String)
    (rawItems : List (Option Product)) : List Product :=
  (rawItems.filterMap (fun r => r.bind (prepareProduct hash now))).filter
    (fun p => p.title ≠ "" && p.url ≠ "")

/-- A feed mode: metadata plus the ranking function applied to the catalog.
The two concrete modes of `FEED_MODES` sort by timestamp/rating with a title
tie-break; their comparators go through `Date.parse` and `localeCompare`, so
the ranking function is kept abstract here.  Every mode of the source returns
a rearrangement of its input (`items.slice().sort(...)`). -/
structure Mode where
  id : String
  label : String := ""
  description : String := ""
  empty : String := ""
  sort : List Product → List Product

/-- `FEED_PAGE_SIZE` from `build.mjs` line 18. -/
def FEED_PAGE_SIZE : Nat := 18

/-- The filtered, mode-ordered, serialized entry sequence of
`buildFeedForMode`: sort, keep the records whose `image`, `url` and `title`
are all truthy, serialize each with `toFeedEntry`. -/
def feedItemsOf (mode : Mode) (items : List Product) : List FeedEntry :=
  ((mode.sort items).filter
    (fun p => p.image ≠ "" && p.url ≠ "" && p.title ≠ "")).map toFeedEntry

/-- A page artifact `{page, pageSize, totalPages, totalItems, items}`. -/
structure PageArtifact where
  page : Nat
  pageSize : Nat
  totalPages : Nat
  totalItems : Nat
  items : List FeedEntry
deriving DecidableEq

/-- One `{page, href}` pointer of a manifest. -/
structure ManifestPage where
  page : Nat
  href : String
deriving DecidableEq

/-- A per-mode manifest artifact. -/
structure Manifest where
  mode : String
  label : String
  description : String
  pageSize : Nat
  totalItems : Nat
  totalPages : Nat
  generatedAt : String
  pages : List ManifestPage
deriving DecidableEq

/-- The per-mode summary returned by `buildFeedForMode`. -/
structure ModeSummary where
  id : String
  label : String
  description : String
  empty : String
  baseHref : String
  manifestHref : String
  pageSize : Nat
  totalItems : Nat
  totalPages : Nat
  initialPage : Nat
  nextPage : String
  initialItems : List FeedEntry
deriving DecidableEq

/-- Everything `buildFeedForMode` produces: the page artifacts it writes, the
manifest artifact, and the summary it returns. -/
structure ModeBuild where
  pages : List PageArtifact
  manifest : Manifest
  summary : ModeSummary
deriving DecidableEq

/-- `${baseHref}/page-${n}.json`. -/
def pageHref (baseHref : String) (n : Nat) : String :=
  baseHref ++ "/page-" ++ toString n ++ ".json"

/-- `buildFeedForMode` from `build.mjs` (lines 515-574).  `now` models
`new Date().toISOString()`.  `totalPages` is `Math.ceil(len / 18)`, written
as the equivalent natural ceiling division; the page loop
`for (index = 0; index < len; index += 18)` emits one artifact per chunk
`feedItems.slice(index, index + 18)` with `page = index / 18 + 1`, hence one
artifact for each `i < totalPages` with slice starting at `i * 18`. -/
def buildFeedForMode (now : String) (items : List Product) (mode : Mode) :
    ModeBuild :=
  let feedItems := feedItemsOf mode items
  let baseHref := "/assets/feed/" ++ mode.id
  let totalPages := (feedItems.length + FEED_PAGE_SIZE - 1) / FEED_PAGE_SIZE
  let pages := (List.range totalPages).map fun i =>
    { page := i + 1
      pageSize := FEED_PAGE_SIZE
      totalPages := totalPages
      totalItems := feedItems.length
      items := (feedItems.drop (i * FEED_PAGE_SIZE)).take FEED_PAGE_SIZE
      : PageArtifact }
  { pages := pages
    manifest :=
      { mode := mode.id
        label := mode.label
        description := mode.description
        pageSize := FEED_PAGE_SIZE
        totalItems := feedItems.length
        totalPages := totalPages
        generatedAt := now
        pages := pages.map fun a => { page := a.page, href := pageHref baseHref a.page } }
    summary :=
      { id := mode.id
        label := mode.label
        description := mode.description
        empty := mode.empty
        baseHref := baseHref
        manifestHref := baseHref ++ "/manifest.json"
        pageSize := FEED_PAGE_SIZE
        totalItems := feedItems.length
        totalPages := totalPages
        initialPage := if feedItems.length ≠ 0 then 1 else 0
        nextPage := if 1 < totalPages then pageHref baseHref 2 else ""
        initialItems := feedItems.take FEED_PAGE_SIZE } }

/-- The value returned by `writeFeedData`. -/
structure FeedData where
  defaultMode : Option String
  modes : List ModeSummary
deriving DecidableEq

/-- `writeFeedData` from `build.mjs` (lines 576-585), with the global
`FEED_MODES` list as a parameter: build every mode, then pick as default the
first summary with `totalItems > 0`, falling back to the first summary
(`modes[0] || null`). -/
def writeFeedData (now : String) (feedModes : List Mode) (items : List Product) :
    FeedData :=
  let modes := feedModes.map fun m => (buildFeedForMode now items m).summary
  let fallback := modes.head?
  let defaultMode :=
    match modes.find? (fun m => 0 < m.totalItems) with
    | some m => some m
    | none => fallback
  { defaultMode := defaultMode.map (fun m => m.id), modes := modes }

/-! ## Client data model (`src/public/assets/feed.js`)

The client runs on a single UI thread; suspension happens only at the awaited
`fetch` inside `loadPage`.  `loadPage` is therefore split into a synchronous
prefix (`loadPageStart`, up to the fetch) and a synchronous continuation
(`loadPageFinish`, everything after the await, with the fetch outcome as an
explicit argument), so arbitrary interleavings with other triggers can be
expressed.  The DOM list container is a list of nodes; the status element,
tab attributes and dataset writes of `applyState` are presentation-only and
are not modelled.  The model assumes the `IntersectionObserver` and sentinel
element exist; `observing` records whether the observer currently observes
the sentinel. -/

/-- An item of a fetched page payload, as the client reads it: only these
string fields are consulted, and the empty string models a missing value. -/
structure Item where
  id : String := ""
  title : String := ""
  url : String := ""
  image : String := ""
  price : String := ""
  brand : String := ""
  category : String := ""
deriving DecidableEq

/-- A rendered feed card (`createFeedCard`): the `data-feed-id` attribute is
set only when the item id is truthy; the body keeps the displayed fields. -/
structure Card where
  id : Option String
  title : String
  url : String
  image : String
  meta : Option String
  price : Option String
deriving DecidableEq

/-- A node of the shared feed list container: a feed card or an empty-state
notice (`<p class="feed-empty">`). -/
inductive FeedNode where
  | card : Card → FeedNode
  | emptyNotice : String → FeedNode
deriving DecidableEq

/-- Whether a node is an empty-state notice (the `.feed-empty` selector). -/
def FeedNode.isEmptyNotice : FeedNode → Bool
  | .emptyNotice _ => true
  | .card _ => false

/-- The `data-feed-id` attribute of a node, when present. -/
def FeedNode.feedId : FeedNode → Option String
  | .card c => c.id
  | .emptyNotice _ => none

/-- `createFeedCard` (feed.js lines 213-262): `none` (JS `null`) unless
`title`, `url` and `image` are all truthy; the meta line joins category and
brand when present. -/
def createFeedCard (item : Item) : Option Card :=
  if item.title = "" ∨ item.url = "" ∨ item.image = "" then none
  else
    let metaParts := (if item.category ≠ "" then [item.category] else []) ++
      (if item.brand ≠ "" then [item.brand] else [])
    some
      { id := if item.id ≠ "" then some item.id else none
        title := item.title
        url := item.url
        image := item.image
        meta := if metaParts.isEmpty then none
                else some (String.intercalate " • " metaParts)
        price := if item.price ≠ "" then some item.price else none }

/-- Insertion into a JS `Set`, modelled as a duplicate-free list preserving
insertion order. -/
def setAdd (s : List String) (x : String) : List String :=
  if x ∈ s then s else s ++ [x]

/-- Per-mode client session state (the records stored in the `modes` map of
`initFeed`). -/
structure MState where
  id : String
  label : String := ""
  description : String := ""
  pageSize : Int := 0
  totalItems : Int := 0
  totalPages : Int := 0
  currentPage : Int := 0
  nextPage : String := ""
  baseHref : String := ""
  manifestHref : String := ""
  empty : String := ""
  savedHtml : List FeedNode := []
  seenIds : List String := []
  isLoading : Bool := false
  statusMessage : String := ""
  done : Bool := false
deriving DecidableEq

/-- The whole client controller state: the per-mode records, the active mode,
the shared displayed list container, and whether the intersection observer is
armed on the sentinel. -/
structure FeedState where
  modes : List MState
  activeModeId : Option String := none
  listEl : List FeedNode := []
  observing : Bool := false
deriving DecidableEq

/-- Look a mode up by id (the `modes.get(id)` of the source; ids are unique
because `modes` is a `Map`). -/
def getMode (st : FeedState) (mid : String) : Option MState :=
  st.modes.find? (fun m => m.id = mid)

/-- Store an updated record for its own id (the in-place mutation of the
record held in the `modes` map). -/
def setMode (st : FeedState) (m : MState) : FeedState :=
  { st with modes := st.modes.map (fun x => if x.id = m.id then m else x) }

/-- `collectSeenIds`: scan the displayed markup for `data-feed-id` values. -/
def collectSeenIds (l : List FeedNode) : List String :=
  l.foldl
    (fun s nd =>
      match nd.feedId with
      | some i => if i ≠ "" then setAdd s i else s
      | none => s) []

/-- The per-item loop of `appendItems`: skip non-objects, skip items whose
truthy id was already seen, skip items whose card is `null`; otherwise record
the id (when truthy) and collect the card, counting it as appended. -/
def appendLoop : List String → List Card → Nat → List (Option Item) →
    List String × List Card × Nat
  | seen, frag, n, [] => (seen, frag, n)
  | seen, frag, n, none :: rest => appendLoop seen frag n rest
  | seen, frag, n, some it :: rest =>
    if it.id ≠ "" ∧ it.id ∈ seen then appendLoop seen frag n rest
    else
      match createFeedCard it with
      | none => appendLoop seen frag n rest
      | some c =>
        appendLoop (if it.id ≠ "" then setAdd seen it.id else seen)
          (frag ++ [c]) (n + 1) rest

/-- `appendItems` (feed.js lines 264-284): returns the updated mode record,
the updated shared list container, and the appended count.  When at least one
card was built, the empty-state notices are removed, the fragment is appended
to the shared container, and the mode's saved markup is refreshed from it. -/
def appendItems (m : MState) (listEl : List FeedNode) (items : List (Option Item)) :
    MState × List FeedNode × Nat :=
  if items.isEmpty then (m, listEl, 0)
  else
    match appendLoop m.seenIds [] 0 items with
    | (seen, frag, n) =>
      if frag.isEmpty then ({ m with seenIds := seen }, listEl, n)
      else
        let listEl2 := (listEl.filter (fun nd => ¬ nd.isEmptyNotice)) ++
          frag.map FeedNode.card
        ({ m with seenIds := seen, savedHtml := listEl2 }, listEl2, n)

/-- A fetched page payload as the client reads it: `page` is `some v` when
`Number(payload.page)` is finite, the three counters are `some` when the
payload carries a number for them, and `items` is empty when the payload does
not carry an array. -/
structure Payload where
  page : Option Int := none
  totalPages : Option Int := none
  totalItems : Option Int := none
  pageSize : Option Int := none
  items : List (Option Item) := []
deriving DecidableEq

/-- Outcome of the awaited fetch: `failure` covers a non-ok HTTP status, a
transport error and a JSON parse error, which all reach the same catch
block. -/
inductive FetchResult where
  | failure
  | success (p : Payload)
deriving DecidableEq

/-- The retryable error notice of the catch block of `loadPage`. -/
def loadErrorMessage : String :=
  "We couldn\x27t load more gifts right now. Try again in a moment."

/-- The notice shown when a page merged zero new entries but more pages
remain. -/
def noMoreMessage : String := "No more gifts to show right now. Check back soon."

/-- `${mode.baseHref}/page-${n}.json` with a client-side (integer) page
number. -/
def clientPageHref (baseHref : String) (n : Int) : String :=
  baseHref ++ "/page-" ++ toString n ++ ".json"

/-- The synchronous prefix of `loadPage` (feed.js lines 286-300), up to the
awaited fetch: resolve the url, treat a missing url as exhaustion
(disconnecting the observer), otherwise clear the status and set the loading
flag.  Returns the updated state and the url of the issued request, if
any. -/
def loadPageStart (st : FeedState) (mid : String) (pageNumber : Int) :
    FeedState × Option String :=
  match getMode st mid with
  | none => (st, none)
  | some m =>
    let url := if m.baseHref ≠ "" then clientPageHref m.baseHref pageNumber
               else m.nextPage
    if url = "" then
      ({ setMode st { m with done := true, nextPage := "" } with observing := false },
        none)
    else
      (setMode st { m with statusMessage := "", isLoading := true }, some url)

/-- The success path of `loadPage` applied to one mode record and the shared
list container: merge the payload, resolve the reported page number
(falling back to the requested one), adopt the payload counters, recompute
`nextPage` and `done`, and set the status notice.  Returns the updated
record, the updated container, and the appended count. -/
def loadPageSuccess (m : MState) (listEl : List FeedNode) (pageNumber : Int)
    (p : Payload) : MState × List FeedNode × Nat :=
  match appendItems m listEl p.items with
  | (m1, listEl2, appended) =>
    let cp :=
      match p.page with
      | some v => if 0 < v then v else pageNumber
      | none => pageNumber
    let m2 := { m1 with
      currentPage := cp
      totalPages := p.totalPages.getD m1.totalPages
      totalItems := p.totalItems.getD m1.totalItems
      pageSize := p.pageSize.getD m1.pageSize }
    let nextNum := cp + 1
    let exhausted : Bool :=
      decide (m2.totalPages ≠ (0 : Int)) && decide (m2.totalPages < nextNum)
    let np := if exhausted then "" else clientPageHref m2.baseHref nextNum
    let dn := if np = "" then true else (if exhausted then true else false)
    let sm := if appended ≠ 0 then ""
              else if np = "" then "" else noMoreMessage
    ({ m2 with
        nextPage := np
        done := dn
        statusMessage := sm
        isLoading := false }, listEl2, appended)

/-- The continuation of `loadPage` after the awaited fetch resolves (feed.js
lines 301-357): on failure, the catch path sets the retryable notice and the
finally block clears the loading flag (and disconnects the observer when the
mode is done); on success, the success path runs, then `updateObserver` and
the finally block (which disconnects the observer when the mode ended up
done). -/
def loadPageFinish (st : FeedState) (mid : String) (pageNumber : Int)
    (res : FetchResult) : FeedState :=
  match getMode st mid with
  | none => st
  | some m =>
    match res with
    | .failure =>
      let m2 := { m with statusMessage := loadErrorMessage, isLoading := false }
      { setMode st m2 with observing := if m.done then false else st.observing }
    | .success p =>
      match loadPageSuccess m st.listEl pageNumber p with
      | (m3, listEl2, _) =>
        let obs1 := !m3.done && m3.nextPage ≠ ""
        let obs2 := if m3.done then false else obs1
        { setMode { st with listEl := listEl2 } m3 with observing := obs2 }

/-- The exhaustion invariant the client transitions maintain: a mode whose
`nextPage` is empty is marked done. -/
def ExhaustedDone (st : FeedState) : Prop :=
  ∀ m ∈ st.modes, m.nextPage = "" → m.done = true

/-- `queueLoad` (feed.js lines 359-372): the fetch trigger shared by the
intersection observer and the load-more button.  Returns the updated state
and the issued request `(url, pageNumber)`, if any. -/
def queueLoad (st : FeedState) : FeedState × Option (String × Int) :=
  match st.activeModeId with
  | none => (st, none)
  | some aid =>
    match getMode st aid with
    | none => (st, none)
    | some m =>
      if m.isLoading || m.done then (st, none)
      else
        let nextNum := m.currentPage + 1
        if m.totalPages ≠ 0 ∧ m.totalPages < nextNum then
          ({ setMode st { m with done := true, nextPage := "" } with
              observing := false }, none)
        else
          match loadPageStart st aid nextNum with
          | (st2, some url) => (st2, some (url, nextNum))
          | (st2, none) => (st2, none)

/-- `activateMode` (feed.js lines 374-395): no-op when the id is falsy,
unknown or already active; otherwise save the outgoing display into the
previous mode's record, swap in the target's saved markup, restore an
empty-state notice when the markup is empty, rebuild the dedup set from the
displayed markup, clear the status, and re-arm or disarm the intersection
trigger according to the target's state. -/
def activateMode (st : FeedState) (mid : String) : FeedState :=
  if mid = "" then st
  else
    match getMode st mid with
    | none => st
    | some m =>
      if st.activeModeId = some mid then st
      else
        let st1 :=
          match st.activeModeId with
          | some prev =>
            match getMode st prev with
            | some pm => setMode st { pm with savedHtml := st.listEl }
            | none => st
          | none => st
        let listEl1 := m.savedHtml
        let listEl2 := if listEl1.isEmpty then [FeedNode.emptyNotice m.empty]
                       else listEl1
        let m1 := { m with
          seenIds := collectSeenIds listEl2
          savedHtml := listEl2
          statusMessage := "" }
        let obs := !m1.done && m1.nextPage ≠ ""
        { setMode { st1 with listEl := listEl2, activeModeId := some mid } m1 with
          observing := obs }

/-- The per-mode JSON blob embedded by the host page, as `initFeed` reads it
(string fields, and the numeric fields after `toNumber`). -/
structure ModeConfig where
  id : String
  label : String := ""
  description : String := ""
  empty : String := ""
  pageSize : Int := 0
  totalItems : Int := 0
  totalPages : Int := 0
  currentPage : Int := 0
  nextPage : String := ""
  baseHref : String := ""
  manifestHref : String := ""
deriving DecidableEq

/-- The mode-record construction of `initFeed` (feed.js lines 60-92) for one
config entry; `initialMarkup` is the markup the caller picked (the live list
for the default mode, otherwise the template markup or the empty-state
placeholder). -/
def initModeState (cfg : ModeConfig) (initialMarkup : List FeedNode) : MState :=
  let emptyMessage := if cfg.empty ≠ "" then cfg.empty
    else "More gifts are loading soon—check back for fresh picks."
  { id := cfg.id
    label := if cfg.label ≠ "" then cfg.label else cfg.id
    description := cfg.description
    pageSize := cfg.pageSize
    totalItems := cfg.totalItems
    totalPages := cfg.totalPages
    currentPage := cfg.currentPage
    nextPage := cfg.nextPage
    baseHref := cfg.baseHref
    manifestHref := cfg.manifestHref
    empty := emptyMessage
    savedHtml := initialMarkup
    seenIds := []
    isLoading := false
    statusMessage := ""
    done := (cfg.nextPage == "" || isBlank cfg.nextPage) &&
      (cfg.totalPages == 0 ||
        (decide (0 < cfg.currentPage) && decide (0 < cfg.totalPages) &&
          decide (cfg.totalPages ≤ cfg.currentPage))) }

/-- The initialization done-condition exactly as claim C10 words it, for
comparison with the condition the code computes: blank `nextPage`, and
additionally either `totalPages == 0`, or both `currentPage > 0` and
`currentPage >= totalPages`. -/
def claimedInitDone (cfg : ModeConfig) : Bool :=
  (cfg.nextPage == "" || isBlank cfg.nextPage) &&
  (cfg.totalPages == 0 ||
    (decide (0 < cfg.currentPage) && decide (cfg.totalPages ≤ cfg.currentPage)))

/-! ## Page-size generalization of the builder (for claim C7)

`buildFeedForMode` uses the compile-time constant `FEED_PAGE_SIZE = 18`; the
spec discusses a `pageSize <= 0` error condition, so the build is also
modelled with the page size as a parameter. -/

/-- `Math.ceil` of an integer quotient; `none` models the non-finite result
of a division by zero (`NaN` or infinity). -/
def jsCeilDiv (a b : Int) : Option Int :=
  if b = 0 then none else some (-((-a).fdiv b))

/-- The index sequence of the page-writing loop
`for (let index = 0; index < len; index += ps)` with a general integer step.
The loop does not terminate when `ps <= 0` and `0 < len`, so it is fueled:
`none` means it did not finish within `fuel` iterations. -/
def feedPageIndices (fuel : Nat) (ps len index : Int) : Option (List Int) :=
  match fuel with
  | 0 => if index < len then none else some []
  | f + 1 =>
    if index < len then
      (feedPageIndices f ps len (index + ps)).map (fun l => index :: l)
    else some []

/-- What the generalized `buildFeedForMode` has produced once its loop has
completed. -/
structure GenModeBuild where
  totalItems : Nat
  totalPages : Option Int
  pageCount : Nat
  nextPage : String
deriving DecidableEq

/-- `buildFeedForMode` with `FEED_PAGE_SIZE` generalized to an integer
parameter; `none` when the page loop does not finish within `fuel`
iterations.  A `some` result means the build ran to the end: the function
body contains no validation of the page size and no throw path. -/
def buildFeedForModeAt (fuel : Nat) (ps : Int) (items : List Product)
    (mode : Mode) : Option GenModeBuild :=
  let feedItems := feedItemsOf mode items
  let baseHref := "/assets/feed/" ++ mode.id
  let totalPages := jsCeilDiv feedItems.length ps
  (feedPageIndices fuel ps feedItems.length 0).map fun idxs =>
    { totalItems := feedItems.length
      totalPages := totalPages
      pageCount := idxs.length
      nextPage :=
        if (match totalPages with | some tp => decide (1 < tp) | none => false) then
          clientPageHref baseHref 2
        else "" }

/-! ## Concrete fixtures

Concrete inputs used to instantiate the theorems and to exhibit
counterexamples. -/

/-- A concrete mode whose ranking function keeps the catalog order. -/
def passMode : Mode :=
  { id := "recent", label := "Most Recent", sort := fun l => l }

/-- A raw catalog record with only the required fields (no timestamps). -/
def sampleRaw : Product :=
  { id := "p1", title := "Desk Lamp", url := "https://x/1", image := "https://x/1.jpg" }

/-- A build timestamp. -/
def sampleNow : String := "2026-01-01T00:00:00.000Z"

/-- A stand-in for the sha256-prefix helper. -/
def sampleHash : String → String := fun _ => "0123456789abcdef"

/-- Nineteen distinct prepared products, enough for two feed pages. -/
def manyProducts : List Product :=
  (List.range 19).map fun i =>
    { id := "p" ++ toString i, title := "T" ++ toString i, url := "u", image := "im" }

/-- A payload item with the required fields and an id. -/
def itemA2 : Item := { id := "a2", title := "Mug", url := "u2", image := "i2" }

/-- A payload item with the required fields but no id. -/
def itemNoId : Item := { title := "Anon", url := "u3", image := "i3" }

/-- A payload item missing its title. -/
def itemBad : Item := { id := "bad", url := "u4", image := "i4" }

/-- The card the client renders for an item carrying only id, title, url and
image. -/
def cardOf (i : String) (t u im : String) : Card :=
  { id := some i, title := t, url := u, image := im, meta := none, price := none }

/-- The card already displayed for mode `a`. -/
def cardA1 : Card := cardOf "a1" "Lamp" "u1" "i1"

/-- The card rendered for `itemA2`. -/
def cardA2 : Card := cardOf "a2" "Mug" "u2" "i2"

/-- The card saved for mode `b`. -/
def cardB1 : Card := cardOf "b1" "Bowl" "u5" "i5"

/-- Client state of mode `a`: page 1 of 3 merged, one card displayed. -/
def modeA : MState :=
  { id := "a", pageSize := 18, totalItems := 40, totalPages := 3, currentPage := 1
    nextPage := "/assets/feed/a/page-2.json", baseHref := "/assets/feed/a"
    savedHtml := [FeedNode.card cardA1], seenIds := ["a1"] }

/-- Client state of mode `b`: a single fully merged page, hence done. -/
def modeB : MState :=
  { id := "b", pageSize := 18, totalItems := 1, totalPages := 1, currentPage := 1
    nextPage := "", baseHref := "/assets/feed/b"
    savedHtml := [FeedNode.card cardB1], seenIds := [], done := true }

/-- A controller state displaying mode `a` with mode `b` in the background. -/
def st0 : FeedState :=
  { modes := [modeA, modeB], activeModeId := some "a"
    listEl := [FeedNode.card cardA1], observing := true }

/-- A controller state displaying mode `b` (which is done). -/
def stB : FeedState :=
  { modes := [modeA, modeB], activeModeId := some "b"
    listEl := [FeedNode.card cardB1], observing := false }

/-- The successful payload of page 2 of mode `a`. -/
def payloadA2 : Payload :=
  { page := some 2, totalPages := some 3, totalItems := some 40
    items := [some itemA2] }

/-- The entry the builder emits for `sampleRaw`. -/
def c5entry : FeedEntry :=
  { id := some "p1", title := some "Desk Lamp", url := some "https://x/1",
    image := some "https://x/1.jpg", updatedAt := some sampleNow }

/-- The single page artifact the builder emits for `[sampleRaw]`. -/
def c5page : PageArtifact :=
  { page := 1, pageSize := 18, totalPages := 1, totalItems := 1, items := [c5entry] }

/-- An embedded config with a negative `totalPages` counter and a blank
`nextPage`. -/
def cfgNeg : ModeConfig :=
  { id := "m", totalPages := -1, currentPage := 1, nextPage := "" }

/-- An embedded config of a mode on page 1 of 3 whose `nextPage` is blank. -/
def cfgMid : ModeConfig :=
  { id := "m", totalPages := 3, currentPage := 1, nextPage := "" }

/-! ## Theorems -/

theorem dropWhile_dropWhile (p : α → Bool) (l : List α) :
    (l.dropWhile p).dropWhile p = l.dropWhile p := by
  induction l with
  | nil => rfl
  | cons a l ih =>
    by_cases h : p a
    · simp [List.dropWhile_cons, h, ih]
    · simp [List.dropWhile_cons, h]

theorem dropWhile_head_false (p : α → Bool) (l : List α) (h t : _)
    (hl : l.dropWhile p = h :: t) : p h = false := by
  induction l with
  | nil => simp at hl
  | cons a l ih =>
    by_cases ha : p a
    · rw [List.dropWhile_cons, if_pos ha] at hl
      exact ih hl
    · rw [List.dropWhile_cons, if_neg ha] at hl
      cases hl
      exact Bool.eq_false_iff.mpr ha

theorem trimEnds_idem (p : α → Bool) (l : List α) :
    trimEnds p (trimEnds p l) = trimEnds p l := by
  unfold trimEnds
  cases hl : l.dropWhile p with
  | nil => simp
  | cons h t =>
    have hh : p h = false := dropWhile_head_false p l h t hl
    have hrev : (h :: t).reverse = t.reverse ++ [h] := by simp
    rw [hrev, List.dropWhile_append]
    by_cases he : (t.reverse.dropWhile p).isEmpty
    · rw [if_pos he]
      simp [List.dropWhile_cons, hh]
    · rw [if_neg he]
      rw [List.reverse_append]
      simp only [List.reverse_cons, List.reverse_nil, List.nil_append, List.singleton_append]
      rw [List.dropWhile_cons, if_neg (by simp [hh])]
      rw [List.reverse_cons, List.reverse_reverse]
      rw [List.dropWhile_append, dropWhile_dropWhile]
      rw [if_neg he]
      simp

theorem jsTrim_idem (s : String) : jsTrim (jsTrim s) = jsTrim s := by
  unfold jsTrim
  rw [show (String.mk (trimEnds isWs s.data)).data = trimEnds isWs s.data from rfl]
  rw [trimEnds_idem]

theorem chunks_join_take (ps : Nat) (l : List α) (n : Nat) :
    ((List.range n).map (fun i => (l.drop (i * ps)).take ps)).flatten = l.take (n * ps) := by
  induction n with
  | zero => simp
  | succ n ih =>
    rw [List.range_succ, List.map_append, List.flatten_append]
    simp only [List.map_cons, List.map_nil, List.flatten_cons, List.flatten_nil,
      List.append_nil]
    rw [ih, Nat.succ_mul, List.take_add]

theorem ceil_le_mul (ps n : Nat) (h : 0 < ps) : n ≤ ((n + ps - 1) / ps) * ps := by
  have h1 : ps * ((n + ps - 1) / ps) + (n + ps - 1) % ps = n + ps - 1 :=
    Nat.div_add_mod _ _
  have h2 : (n + ps - 1) % ps < ps := Nat.mod_lt _ h
  have h3 : ((n + ps - 1) / ps) * ps = ps * ((n + ps - 1) / ps) := Nat.mul_comm _ _
  omega

theorem ceil_min (ps n k : Nat) (h : 0 < ps) (hk : n ≤ k * ps) :
    (n + ps - 1) / ps ≤ k := by
  have hlt : n + ps - 1 < (k + 1) * ps := by
    have h2 : (k + 1) * ps = k * ps + ps := Nat.succ_mul k ps
    omega
  have := (Nat.div_lt_iff_lt_mul h).mpr hlt
  omega

theorem get_range_map (f : Nat → β) (n i : Nat)
    (hi : i < ((List.range n).map f).length) :
    ((List.range n).map f).get ⟨i, hi⟩ = f i := by
  simp [List.get_eq_getElem]

/-- The page list of `buildFeedForMode`, unfolded. -/
theorem buildFeedForMode_pages_def (now : String) (items : List Product) (mode : Mode) :
    (buildFeedForMode now items mode).pages =
      (List.range (((feedItemsOf mode items).length + FEED_PAGE_SIZE - 1) /
          FEED_PAGE_SIZE)).map (fun i =>
        { page := i + 1
          pageSize := FEED_PAGE_SIZE
          totalPages := ((feedItemsOf mode items).length + FEED_PAGE_SIZE - 1) /
            FEED_PAGE_SIZE
          totalItems := (feedItemsOf mode items).length
          items := ((feedItemsOf mode items).drop (i * FEED_PAGE_SIZE)).take
            FEED_PAGE_SIZE }) := rfl

/-- Claim C1: for every catalog and mode, `buildFeedForMode` partitions the
filtered, mode-sorted entry sequence: `totalPages` is the ceiling of the
filtered count divided by the page size (stated by the two ceiling
characterizations), there is one artifact per page, page `i` (1-based) holds
exactly the `i`-th consecutive chunk, every page except possibly the last
holds exactly `FEED_PAGE_SIZE` items (and none holds more), and the
concatenation of all pages in order is exactly the filtered, sorted sequence
with no gaps or repeats. -/
theorem buildFeedForMode_partition (now : String) (items : List Product) (mode : Mode) :
    (buildFeedForMode now items mode).summary.totalPages =
      ((feedItemsOf mode items).length + FEED_PAGE_SIZE - 1) / FEED_PAGE_SIZE ∧
    (feedItemsOf mode items).length ≤
      (buildFeedForMode now items mode).summary.totalPages * FEED_PAGE_SIZE ∧
    (∀ k, (feedItemsOf mode items).length ≤ k * FEED_PAGE_SIZE →
      (buildFeedForMode now items mode).summary.totalPages ≤ k) ∧
    (buildFeedForMode now items mode).pages.length =
      (buildFeedForMode now items mode).summary.totalPages ∧
    (∀ i (hi : i < (buildFeedForMode now items mode).pages.length),
      ((buildFeedForMode now items mode).pages.get ⟨i, hi⟩).page = i + 1 ∧
      ((buildFeedForMode now items mode).pages.get ⟨i, hi⟩).items =
        ((feedItemsOf mode items).drop (i * FEED_PAGE_SIZE)).take FEED_PAGE_SIZE ∧
      ((buildFeedForMode now items mode).pages.get ⟨i, hi⟩).items.length ≤
        FEED_PAGE_SIZE ∧
      (i + 1 < (buildFeedForMode now items mode).pages.length →
        ((buildFeedForMode now items mode).pages.get ⟨i, hi⟩).items.length =
          FEED_PAGE_SIZE)) ∧
    ((buildFeedForMode now items mode).pages.map PageArtifact.items).flatten =
      feedItemsOf mode items := by
  have hps : 0 < FEED_PAGE_SIZE := by decide
  set fi := feedItemsOf mode items with hfi
  set q := (fi.length + FEED_PAGE_SIZE - 1) / FEED_PAGE_SIZE with hq
  have hpages := buildFeedForMode_pages_def now items mode
  have htp : (buildFeedForMode now items mode).summary.totalPages = q := rfl
  have hlen : (buildFeedForMode now items mode).pages.length = q := by
    rw [hpages]; simp
  refine ⟨htp, ?_, ?_, ?_, ?_, ?_⟩
  · rw [htp, hq]
    exact ceil_le_mul _ _ hps
  · intro k hk
    rw [htp, hq]
    exact ceil_min _ _ _ hps hk
  · rw [hlen, htp]
  · intro i hi
    have hiq : i < q := by rw [← hlen]; exact hi
    have hget : (buildFeedForMode now items mode).pages.get ⟨i, hi⟩ =
        { page := i + 1
          pageSize := FEED_PAGE_SIZE
          totalPages := q
          totalItems := fi.length
          items := (fi.drop (i * FEED_PAGE_SIZE)).take FEED_PAGE_SIZE } := by
      have := get_range_map (fun i =>
        ({ page := i + 1
           pageSize := FEED_PAGE_SIZE
           totalPages := q
           totalItems := fi.length
           items := (fi.drop (i * FEED_PAGE_SIZE)).take FEED_PAGE_SIZE } :
          PageArtifact)) q i (by simpa using hiq)
      calc (buildFeedForMode now items mode).pages.get ⟨i, hi⟩
          = ((List.range q).map (fun i =>
              ({ page := i + 1
                 pageSize := FEED_PAGE_SIZE
                 totalPages := q
                 totalItems := fi.length
                 items := (fi.drop (i * FEED_PAGE_SIZE)).take FEED_PAGE_SIZE } :
                PageArtifact))).get ⟨i, by simpa using hiq⟩ := by
            apply List.get_of_eq
            exact hpages
        _ = _ := this
    refine ⟨by rw [hget], by rw [hget], ?_, ?_⟩
    · rw [hget]
      simp [List.length_take]
    · intro hsucc
      have hsq : i + 1 < q := by rw [← hlen]; exact hsucc
      rw [hget]
      simp only [List.length_take, List.length_drop]
      have hub : q * FEED_PAGE_SIZE ≤ fi.length + FEED_PAGE_SIZE - 1 := by
        rw [hq]; exact Nat.div_mul_le_self _ _
      have hmul : (i + 2) * FEED_PAGE_SIZE ≤ q * FEED_PAGE_SIZE :=
        Nat.mul_le_mul_right _ (by omega)
      have hexp : (i + 2) * FEED_PAGE_SIZE =
          i * FEED_PAGE_SIZE + 2 * FEED_PAGE_SIZE := by ring
      omega
  · rw [hpages, List.map_map]
    have hcomp : (PageArtifact.items ∘ fun i =>
        ({ page := i + 1
           pageSize := FEED_PAGE_SIZE
           totalPages := q
           totalItems := fi.length
           items := (fi.drop (i * FEED_PAGE_SIZE)).take FEED_PAGE_SIZE } :
          PageArtifact)) =
        fun i => (fi.drop (i * FEED_PAGE_SIZE)).take FEED_PAGE_SIZE := rfl
    rw [hcomp, chunks_join_take]
    exact List.take_of_length_le (ceil_le_mul _ _ (by decide))

theorem buildFeedForMode_partition_witness :
    (buildFeedForMode "t" manyProducts passMode).summary.totalPages ≤ 2 ∧
    (∃ hi : 0 < (buildFeedForMode "t" manyProducts passMode).pages.length,
      ((buildFeedForMode "t" manyProducts passMode).pages.get ⟨0, hi⟩).items.length =
        FEED_PAGE_SIZE) ∧
    ((buildFeedForMode "t" manyProducts passMode).pages.map PageArtifact.items).flatten =
      feedItemsOf passMode manyProducts := by
  have h := buildFeedForMode_partition "t" manyProducts passMode
  have hlen : 0 < (buildFeedForMode "t" manyProducts passMode).pages.length := by
    decide
  exact ⟨h.2.2.1 2 (by decide),
    ⟨hlen, (h.2.2.2.2.1 0 hlen).2.2.2 (by decide)⟩, h.2.2.2.2.2⟩

/-- Claim C7 (amended): the build performs no page-size validation; the page
size is the compile-time constant `FEED_PAGE_SIZE = 18`, which is positive,
so no `pageSize <= 0` case exists in the build.  For every mode whose
filtered catalog is empty the build succeeds, yielding `totalPages = 0`,
zero page artifacts, and a manifest whose pages list is empty. -/
theorem feed_pageSize_and_empty_catalog :
    FEED_PAGE_SIZE = 18 ∧ 0 < FEED_PAGE_SIZE ∧
    (∀ now items mode, feedItemsOf mode items = [] →
      (buildFeedForMode now items mode).summary.totalPages = 0 ∧
      (buildFeedForMode now items mode).summary.totalItems = 0 ∧
      (buildFeedForMode now items mode).pages = [] ∧
      (buildFeedForMode now items mode).manifest.pages = [] ∧
      (buildFeedForMode now items mode).summary.nextPage = "") := by
  refine ⟨rfl, by decide, ?_⟩
  intro now items mode h
  refine ⟨?_, ?_, ?_, ?_, ?_⟩ <;> simp [buildFeedForMode, h, FEED_PAGE_SIZE]

theorem feed_pageSize_and_empty_catalog_witness :
    (buildFeedForMode "t" [] passMode).summary.totalPages = 0 ∧
    (buildFeedForMode "t" [] passMode).pages = [] ∧
    (buildFeedForMode "t" [] passMode).manifest.pages = [] := by
  have h := feed_pageSize_and_empty_catalog.2.2 "t" [] passMode (by decide)
  exact ⟨h.1, h.2.2.1, h.2.2.2.1⟩

/-- Counterexample to claim C7 as stated: with the page size generalized to a
parameter, a build at `pageSize = 0` (here on an empty catalog, where the
page loop exits immediately) completes and returns a summary instead of
failing fast — the build contains no page-size validation and no abort
path. -/
theorem buildFeedForModeAt_zero_completes :
    buildFeedForModeAt 1 0 [] passMode =
      some { totalItems := 0, totalPages := none, pageCount := 0, nextPage := "" } := by
  decide

theorem find?_first {p : α → Bool} :
    ∀ {l : List α} {a : α}, l.find? p = some a →
      ∃ i, l.get? i = some a ∧ p a = true ∧
        ∀ j b, j < i → l.get? j = some b → p b = false := by
  intro l
  induction l with
  | nil => intro a h; simp at h
  | cons x xs ih =>
    intro a h
    by_cases hx : p x
    · rw [List.find?_cons_of_pos _ hx] at h
      cases h
      exact ⟨0, rfl, hx, by intro j b hj; omega⟩
    · rw [List.find?_cons_of_neg _ (by simpa using hx)] at h
      obtain ⟨i, hi, hp, hfirst⟩ := ih h
      refine ⟨i + 1, by simpa using hi, hp, ?_⟩
      intro j b hj hget
      cases j with
      | zero =>
        simp at hget
        subst hget
        simpa using hx
      | succ k => exact hfirst k b (by omega) (by simpa using hget)

/-- The default-mode selection of `writeFeedData`, unfolded. -/
theorem writeFeedData_defaultMode_def (now : String) (feedModes : List Mode)
    (items : List Product) :
    (writeFeedData now feedModes items).defaultMode =
      Option.map (fun s : ModeSummary => s.id)
        (match (writeFeedData now feedModes items).modes.find?
            (fun m => 0 < m.totalItems) with
         | some m => some m
         | none => (writeFeedData now feedModes items).modes.head?) := rfl

/-- Claim C8: `writeFeedData` returns one summary per mode, in input order,
and selects as UI default the first mode (in input order) whose
`totalItems > 0`, or the first mode regardless when every mode is empty. -/
theorem writeFeedData_summaries_default (now : String) (feedModes : List Mode)
    (items : List Product) (h : feedModes ≠ []) :
    (writeFeedData now feedModes items).modes =
      feedModes.map (fun m => (buildFeedForMode now items m).summary) ∧
    ((∃ s ∈ (writeFeedData now feedModes items).modes, 0 < s.totalItems) →
      ∃ i s, (writeFeedData now feedModes items).modes.get? i = some s ∧
        (writeFeedData now feedModes items).defaultMode = some s.id ∧
        0 < s.totalItems ∧
        ∀ j t, j < i →
          (writeFeedData now feedModes items).modes.get? j = some t →
          t.totalItems = 0) ∧
    ((∀ s ∈ (writeFeedData now feedModes items).modes, s.totalItems = 0) →
      (writeFeedData now feedModes items).defaultMode =
        ((writeFeedData now feedModes items).modes.head?).map (fun s => s.id) ∧
      (writeFeedData now feedModes items).defaultMode ≠ none) := by
  refine ⟨rfl, ?_, ?_⟩
  · intro hex
    obtain ⟨s0, hmem, hpos⟩ := hex
    cases hfind : (writeFeedData now feedModes items).modes.find?
        (fun m => 0 < m.totalItems) with
    | none =>
      have := List.find?_eq_none.mp hfind s0 hmem
      simp [hpos] at this
    | some s =>
      obtain ⟨i, hi, hp, hfirst⟩ := find?_first hfind
      refine ⟨i, s, hi, ?_, by simpa using hp, ?_⟩
      · rw [writeFeedData_defaultMode_def, hfind]
        rfl
      · intro j t hj hget
        have := hfirst j t hj hget
        simpa using this
  · intro hall
    have hfind : (writeFeedData now feedModes items).modes.find?
        (fun m => 0 < m.totalItems) = none := by
      apply List.find?_eq_none.mpr
      intro x hx
      simp [hall x hx]
    constructor
    · rw [writeFeedData_defaultMode_def, hfind]
    · rw [writeFeedData_defaultMode_def, hfind]
      cases feedModes with
      | nil => exact absurd rfl h
      | cons a l => simp [writeFeedData]

theorem writeFeedData_summaries_default_witness :
    ∃ i s, (writeFeedData "t" [passMode] [sampleRaw]).modes.get? i = some s ∧
      (writeFeedData "t" [passMode] [sampleRaw]).defaultMode = some s.id ∧
      0 < s.totalItems ∧
      ∀ j t, j < i →
        (writeFeedData "t" [passMode] [sampleRaw]).modes.get? j = some t →
        t.totalItems = 0 :=
  (writeFeedData_summaries_default "t" [passMode] [sampleRaw]
      (List.cons_ne_nil _ _)).2.1 (by decide)

theorem compactS_some_nonblank {x v : String} (h : compactS x = some v) :
    jsTrim v ≠ "" := by
  unfold compactS at h
  by_cases hx : jsTrim x = ""
  · rw [if_pos hx] at h
    cases h
  · rw [if_neg hx] at h
    cases h
    exact hx

theorem compactS_eq_none_iff (x : String) : compactS x = none ↔ jsTrim x = "" := by
  unfold compactS
  by_cases hx : jsTrim x = "" <;> simp [hx]

theorem compactS_of_nonblank {x : String} (h : jsTrim x ≠ "") :
    compactS x = some x := by
  unfold compactS
  rw [if_neg h]

theorem prepareProduct_required (hash : String → String) (now : String)
    (raw p : Product) (h : prepareProduct hash now raw = some p) :
    p.title = jsTrim raw.title ∧ p.url = jsTrim raw.url ∧
    p.image = jsTrim raw.image ∧ p.title ≠ "" ∧ p.url ≠ "" ∧ p.image ≠ "" := by
  simp only [prepareProduct] at h
  split at h
  · cases h
  · rename_i hc
    push_neg at hc
    cases h
    exact ⟨rfl, rfl, rfl, hc.1, hc.2.1, hc.2.2⟩

theorem mem_mainProducts (hash : String → String) (now : String)
    (rawItems : List (Option Product)) (p : Product)
    (h : p ∈ mainProducts hash now rawItems) :
    ∃ raw, prepareProduct hash now raw = some p := by
  unfold mainProducts at h
  have h1 := (List.mem_filter.mp h).1
  obtain ⟨r, hr, hbind⟩ := List.mem_filterMap.mp h1
  cases r with
  | none => simp at hbind
  | some raw => exact ⟨raw, by simpa using hbind⟩

theorem mem_feedItems {mode : Mode} {items : List Product} {e : FeedEntry}
    (hsort : ∀ l (x : Product), x ∈ mode.sort l → x ∈ l)
    (h : e ∈ feedItemsOf mode items) :
    ∃ p, p ∈ items ∧ e = toFeedEntry p ∧ p.title ≠ "" := by
  unfold feedItemsOf at h
  obtain ⟨p, hp, he⟩ := List.mem_map.mp h
  have hf := List.mem_filter.mp hp
  have hcond := hf.2
  simp only [Bool.and_eq_true, decide_eq_true_eq] at hcond
  exact ⟨p, hsort _ _ hf.1, he.symm, hcond.2⟩

theorem page_items_mem (now : String) (items : List Product) (mode : Mode)
    (pg : PageArtifact)
    (hpg : pg ∈ (buildFeedForMode now items mode).pages) (e : FeedEntry)
    (he : e ∈ pg.items) : e ∈ feedItemsOf mode items := by
  rw [buildFeedForMode_pages_def] at hpg
  obtain ⟨i, hi, hpgeq⟩ := List.mem_map.mp hpg
  rw [← hpgeq] at he
  exact List.mem_of_mem_drop (List.mem_of_mem_take he)

/-- Claim C5 (amended): every entry the builder emits into a page artifact
has present, non-blank `title`, `url` and `image`; every key present in an
emitted entry carries a non-blank value — an optional field is never stored
as null or as an empty/whitespace string; and an optional key is omitted
exactly when its computed source value is blank, where the computed category
may be derived from `category_slug` when the source category is empty, and
the computed `updatedAt` falls back from `updated_at` to `updatedAt` (which
`prepareProduct` backfills with the build timestamp when the source omits
both). -/
theorem feedEntry_minimal_shape (hash : String → String) (now : String)
    (rawItems : List (Option Product)) (mode : Mode)
    (hsort : ∀ l (x : Product), x ∈ mode.sort l → x ∈ l) :
    (∀ pg ∈ (buildFeedForMode now (mainProducts hash now rawItems) mode).pages,
      ∀ e ∈ pg.items,
        (∃ t, e.title = some t ∧ jsTrim t ≠ "") ∧
        (∃ u, e.url = some u ∧ jsTrim u ≠ "") ∧
        (∃ im, e.image = some im ∧ jsTrim im ≠ "") ∧
        (∀ v, e.price = some v → jsTrim v ≠ "") ∧
        (∀ v, e.brand = some v → jsTrim v ≠ "") ∧
        (∀ v, e.category = some v → jsTrim v ≠ "") ∧
        (∀ v, e.updatedAt = some v → jsTrim v ≠ "") ∧
        (∀ v, e.id = some v → jsTrim v ≠ "")) ∧
    (∀ p : Product,
      ((toFeedEntry p).price = none ↔ jsTrim p.price = "") ∧
      ((toFeedEntry p).brand = none ↔ jsTrim p.brand = "") ∧
      ((toFeedEntry p).category = none ↔ jsTrim (formatCategory p) = "") ∧
      ((toFeedEntry p).updatedAt = none ↔
        jsTrim (if p.updated_at ≠ "" then p.updated_at else p.updatedAt) = "")) := by
  constructor
  · intro pg hpg e he
    have hfi := page_items_mem now _ mode pg hpg e he
    obtain ⟨p, hpmem, heq, _⟩ := mem_feedItems hsort hfi
    obtain ⟨raw, hprep⟩ := mem_mainProducts hash now rawItems p hpmem
    obtain ⟨ht, hu, hi2, htne, hune, hine⟩ :=
      prepareProduct_required hash now raw p hprep
    have htt : jsTrim p.title ≠ "" := by
      rw [ht, jsTrim_idem, ← ht]
      exact htne
    have huu : jsTrim p.url ≠ "" := by
      rw [hu, jsTrim_idem, ← hu]
      exact hune
    have hii : jsTrim p.image ≠ "" := by
      rw [hi2, jsTrim_idem, ← hi2]
      exact hine
    subst heq
    refine ⟨⟨p.title, ?_, htt⟩, ⟨p.url, ?_, huu⟩, ⟨p.image, ?_, hii⟩,
      ?_, ?_, ?_, ?_, ?_⟩
    · exact compactS_of_nonblank htt
    · exact compactS_of_nonblank huu
    · exact compactS_of_nonblank hii
    all_goals intro v hv; exact compactS_some_nonblank hv
  · intro p
    exact ⟨compactS_eq_none_iff _, compactS_eq_none_iff _,
      compactS_eq_none_iff _, compactS_eq_none_iff _⟩

theorem feedEntry_minimal_shape_witness :
    (∃ t, c5entry.title = some t ∧ jsTrim t ≠ "") ∧
    (∀ v, c5entry.price = some v → jsTrim v ≠ "") ∧
    (∀ v, c5entry.updatedAt = some v → jsTrim v ≠ "") := by
  have h := (feedEntry_minimal_shape sampleHash sampleNow [some sampleRaw] passMode
    (fun _ _ hx => hx)).1 c5page (by decide) c5entry (by decide)
  exact ⟨h.1, h.2.2.2.1, h.2.2.2.2.2.2.1⟩

/-- Counterexample to claim C5 as stated: the record `sampleRaw` carries no
`updated_at` or `updatedAt` value at all, yet the entry the builder emits for
it carries an `updatedAt` key (backfilled with the build timestamp by
`prepareProduct`), so an optional field that is absent in the source record
is not omitted from the serialized entry. -/
theorem updatedAt_backfilled_counterexample :
    sampleRaw.updated_at = "" ∧ sampleRaw.updatedAt = "" ∧
    ((buildFeedForMode sampleNow
        (mainProducts sampleHash sampleNow [some sampleRaw]) passMode).pages.map
      (fun pg => pg.items.map FeedEntry.updatedAt)) = [[some sampleNow]] := by
  decide

theorem clientPageHref_ne_empty (b : String) (n : Int) :
    clientPageHref b n ≠ "" := by
  intro h
  have hd := congrArg String.data h
  simp only [clientPageHref] at hd
  rw [String.data_append, String.data_append, String.data_append] at hd
  simp at hd

theorem find?_map_set (mid : String) (m' : MState) (hid : m'.id = mid) :
    ∀ (l : List MState) (m : MState),
      l.find? (fun x => x.id = mid) = some m →
      (l.map (fun x => if x.id = m'.id then m' else x)).find?
        (fun x => x.id = mid) = some m' := by
  intro l
  induction l with
  | nil => intro m h; simp at h
  | cons x xs ih =>
    intro m h
    by_cases hx : x.id = mid
    · rw [List.map_cons]
      have hrepl : (if x.id = m'.id then m' else x) = m' := by
        rw [hid]
        exact if_pos hx
      rw [hrepl]
      exact List.find?_cons_of_pos _ (by simp [hid])
    · rw [List.find?_cons_of_neg _ (by simp [hx])] at h
      rw [List.map_cons]
      have hrepl : (if x.id = m'.id then m' else x) = x := by
        rw [hid]
        exact if_neg hx
      rw [hrepl]
      rw [List.find?_cons_of_neg _ (by simp [hx])]
      exact ih m h

theorem getMode_id {st : FeedState} {mid : String} {m : MState}
    (h : getMode st mid = some m) : m.id = mid := by
  have := List.find?_some h
  simpa using this

theorem getMode_setMode (st : FeedState) (mid : String) (m m' : MState)
    (h : getMode st mid = some m) (hid : m'.id = mid) :
    getMode (setMode st m') mid = some m' :=
  find?_map_set mid m' hid st.modes m h

theorem queueLoad_requests (st : FeedState) (mid : String) (m : MState)
    (hact : st.activeModeId = some mid) (h : getMode st mid = some m)
    (hload : m.isLoading = false) (hdone : m.done = false)
    (hguard : ¬ (m.totalPages ≠ 0 ∧ m.totalPages < m.currentPage + 1))
    (hbase : m.baseHref ≠ "") :
    (queueLoad st).2 = some (clientPageHref m.baseHref (m.currentPage + 1),
      m.currentPage + 1) := by
  simp only [queueLoad, hact, h]
  rw [if_neg (by simp [hload, hdone])]
  rw [if_neg hguard]
  simp only [loadPageStart, h]
  rw [if_pos hbase]
  rw [if_neg (clientPageHref_ne_empty m.baseHref (m.currentPage + 1))]

theorem queueLoad_done_noop (st : FeedState) (mid : String) (m : MState)
    (hact : st.activeModeId = some mid) (h : getMode st mid = some m)
    (hdone : m.done = true) : queueLoad st = (st, none) := by
  simp only [queueLoad, hact, h]
  rw [if_pos (by simp [hdone])]

/-- Claim C2: a failed fetch (non-success HTTP status, transport error or
parse error — they reach the same catch block) leaves the mode's
`currentPage`, `nextPage`, `seenIds` and `done` unchanged, sets
`statusMessage` to a non-empty retryable notice, clears `isLoading`, merges
nothing into the displayed list, and a subsequent fetch trigger retries the
same page number `currentPage + 1`. -/
theorem loadPage_failure_retryable (st : FeedState) (mid : String) (n : Int)
    (m : MState) (h : getMode st mid = some m) :
    ∃ m', getMode (loadPageFinish st mid n .failure) mid = some m' ∧
      m'.currentPage = m.currentPage ∧ m'.nextPage = m.nextPage ∧
      m'.seenIds = m.seenIds ∧ m'.done = m.done ∧
      m'.statusMessage = loadErrorMessage ∧ loadErrorMessage ≠ "" ∧
      m'.isLoading = false ∧
      (loadPageFinish st mid n .failure).listEl = st.listEl ∧
      (loadPageFinish st mid n .failure).activeModeId = st.activeModeId ∧
      (st.activeModeId = some mid → m.done = false → m.baseHref ≠ "" →
        ¬ (m.totalPages ≠ 0 ∧ m.totalPages < m.currentPage + 1) →
        (queueLoad (loadPageFinish st mid n .failure)).2 =
          some (clientPageHref m.baseHref (m.currentPage + 1),
            m.currentPage + 1)) := by
  have hid : m.id = mid := getMode_id h
  have hdef : loadPageFinish st mid n .failure =
      { setMode st { m with statusMessage := loadErrorMessage, isLoading := false }
        with observing := if m.done then false else st.observing } := by
    unfold loadPageFinish
    rw [h]
  refine ⟨{ m with statusMessage := loadErrorMessage, isLoading := false },
    ?_, rfl, rfl, rfl, rfl, rfl, by decide, rfl, ?_, ?_, ?_⟩
  · rw [hdef]
    exact getMode_setMode st mid m _ h hid
  · rw [hdef]
    rfl
  · rw [hdef]
    rfl
  · intro hact hdone hbase hguard
    apply queueLoad_requests (loadPageFinish st mid n .failure) mid
      { m with statusMessage := loadErrorMessage, isLoading := false }
    · rw [hdef]
      exact hact
    · rw [hdef]
      exact getMode_setMode st mid m _ h hid
    · rfl
    · exact hdone
    · exact hguard
    · exact hbase

theorem loadPage_failure_retryable_witness :
    ∃ m', getMode (loadPageFinish st0 "a" 2 .failure) "a" = some m' ∧
      m'.currentPage = modeA.currentPage ∧ m'.nextPage = modeA.nextPage ∧
      m'.seenIds = modeA.seenIds ∧ m'.done = modeA.done ∧
      m'.statusMessage = loadErrorMessage ∧ loadErrorMessage ≠ "" ∧
      m'.isLoading = false ∧
      (loadPageFinish st0 "a" 2 .failure).listEl = st0.listEl ∧
      (loadPageFinish st0 "a" 2 .failure).activeModeId = st0.activeModeId ∧
      (st0.activeModeId = some "a" → modeA.done = false → modeA.baseHref ≠ "" →
        ¬ (modeA.totalPages ≠ 0 ∧ modeA.totalPages < modeA.currentPage + 1) →
        (queueLoad (loadPageFinish st0 "a" 2 .failure)).2 =
          some (clientPageHref modeA.baseHref (modeA.currentPage + 1),
            modeA.currentPage + 1)) :=
  loadPage_failure_retryable st0 "a" 2 modeA (by decide)

theorem appendLoop_cons_none (seen : List String) (frag : List Card) (n : Nat)
    (rest : List (Option Item)) :
    appendLoop seen frag n (none :: rest) = appendLoop seen frag n rest := rfl

theorem appendLoop_cons_some (seen : List String) (frag : List Card) (n : Nat)
    (it : Item) (rest : List (Option Item)) :
    appendLoop seen frag n (some it :: rest) =
      if it.id ≠ "" ∧ it.id ∈ seen then appendLoop seen frag n rest
      else
        match createFeedCard it with
        | none => appendLoop seen frag n rest
        | some c => appendLoop (if it.id ≠ "" then setAdd seen it.id else seen)
            (frag ++ [c]) (n + 1) rest := rfl

/-- Claim C9: an item missing `title`, `url` or `image` gets a `null` card,
and the merge neither renders it, counts it as appended, nor records its id
in `seenIds`: merging a payload is equivalent to merging the payload with
its non-object and invalid entries removed. -/
theorem client_enforces_required_fields :
    (∀ item : Item, (item.title = "" ∨ item.url = "" ∨ item.image = "") →
      createFeedCard item = none) ∧
    (∀ (m : MState) (listEl : List FeedNode) (it : Item),
      (it.title = "" ∨ it.url = "" ∨ it.image = "") →
      appendItems m listEl [some it] = (m, listEl, 0)) ∧
    (∀ (seen : List String) (frag : List Card) (k : Nat)
      (items : List (Option Item)),
      appendLoop seen frag k items =
        appendLoop seen frag k (items.filter (fun o =>
          match o with
          | some it => !(it.title == "" || it.url == "" || it.image == "")
          | none => false))) := by
  have hcard : ∀ item : Item,
      (item.title = "" ∨ item.url = "" ∨ item.image = "") →
      createFeedCard item = none := by
    intro item h
    unfold createFeedCard
    rw [if_pos h]
  have hloop : ∀ (items : List (Option Item)) (seen : List String)
      (frag : List Card) (k : Nat),
      appendLoop seen frag k items =
        appendLoop seen frag k (items.filter (fun o =>
          match o with
          | some it => !(it.title == "" || it.url == "" || it.image == "")
          | none => false)) := by
    intro items
    induction items with
    | nil => intro seen frag k; rfl
    | cons o rest ih =>
      intro seen frag k
      cases o with
      | none =>
        rw [List.filter_cons]
        rw [if_neg Bool.false_ne_true, appendLoop_cons_none]
        exact ih seen frag k
      | some it =>
        rw [List.filter_cons]
        by_cases hv : it.title = "" ∨ it.url = "" ∨ it.image = ""
        · have hpred : (match some it with
              | some it => !(it.title == "" || it.url == "" || it.image == "")
              | none => false) = false := by
            rcases hv with h | h | h <;> simp [h]
          rw [hpred]
          rw [if_neg Bool.false_ne_true]
          rw [appendLoop_cons_some]
          by_cases hc : it.id ≠ "" ∧ it.id ∈ seen
          · rw [if_pos hc]
            exact ih seen frag k
          · rw [if_neg hc, hcard it hv]
            exact ih seen frag k
        · have hpred : (match some it with
              | some it => !(it.title == "" || it.url == "" || it.image == "")
              | none => false) = true := by
            push_neg at hv
            simp [hv.1, hv.2.1, hv.2.2]
          rw [hpred]
          rw [if_pos rfl]
          rw [appendLoop_cons_some, appendLoop_cons_some]
          by_cases hc : it.id ≠ "" ∧ it.id ∈ seen
          · rw [if_pos hc, if_pos hc]
            exact ih seen frag k
          · rw [if_neg hc, if_neg hc]
            cases hcc : createFeedCard it with
            | none => exact ih seen frag k
            | some c => exact ih _ _ _
  refine ⟨hcard, ?_, fun seen frag k items => hloop items seen frag k⟩
  intro m listEl it h
  unfold appendItems
  rw [if_neg (by simp)]
  have : appendLoop m.seenIds [] 0 [some it] = (m.seenIds, [], 0) := by
    rw [appendLoop_cons_some]
    by_cases hc : it.id ≠ "" ∧ it.id ∈ m.seenIds
    · rw [if_pos hc]
      rfl
    · rw [if_neg hc, hcard it h]
      rfl
  rw [this]
  rfl

theorem client_enforces_required_fields_witness :
    createFeedCard itemBad = none ∧
    appendItems modeA [FeedNode.card cardA1] [some itemBad] =
      (modeA, [FeedNode.card cardA1], 0) := by
  have h := client_enforces_required_fields
  exact ⟨h.1 itemBad (by decide), h.2.1 modeA [FeedNode.card cardA1] itemBad (by decide)⟩

theorem mem_setAdd_of_mem {s : List String} {x y : String} (h : x ∈ s) :
    x ∈ setAdd s y := by
  unfold setAdd
  split
  · exact h
  · exact List.mem_append_left _ h

theorem mem_setAdd_self (s : List String) (y : String) : y ∈ setAdd s y := by
  unfold setAdd
  split
  · assumption
  · exact List.mem_append_right _ (by simp)

theorem appendLoop_seen_mono :
    ∀ (items : List (Option Item)) (seen : List String) (frag : List Card)
      (n : Nat) (x : String), x ∈ seen →
      x ∈ (appendLoop seen frag n items).1 := by
  intro items
  induction items with
  | nil => intro seen frag n x hx; exact hx
  | cons o rest ih =>
    intro seen frag n x hx
    cases o with
    | none => exact ih seen frag n x hx
    | some it =>
      show x ∈ (appendLoop seen frag n (some it :: rest)).1
      simp only [appendLoop]
      by_cases hc : it.id ≠ "" ∧ it.id ∈ seen
      · rw [if_pos hc]
        exact ih _ _ _ _ hx
      · rw [if_neg hc]
        cases hcc : createFeedCard it with
        | none => exact ih _ _ _ _ hx
        | some c =>
          apply ih
          by_cases hid : it.id ≠ ""
          · rw [if_pos hid]
            exact mem_setAdd_of_mem hx
          · rw [if_neg hid]
            exact hx

theorem appendLoop_covers :
    ∀ (items : List (Option Item)) (seen : List String) (frag : List Card)
      (n : Nat) (it : Item), some it ∈ items → it.id ≠ "" →
      createFeedCard it ≠ none →
      it.id ∈ (appendLoop seen frag n items).1 := by
  intro items
  induction items with
  | nil => intro seen frag n it hmem; simp at hmem
  | cons o rest ih =>
    intro seen frag n it hmem hid hcard
    rcases List.mem_cons.mp hmem with heq | hrest
    · cases heq
      show it.id ∈ (appendLoop seen frag n (some it :: rest)).1
      simp only [appendLoop]
      by_cases hc : it.id ≠ "" ∧ it.id ∈ seen
      · rw [if_pos hc]
        exact appendLoop_seen_mono rest _ _ _ _ hc.2
      · rw [if_neg hc]
        cases hcc : createFeedCard it with
        | none => exact absurd hcc hcard
        | some c =>
          apply appendLoop_seen_mono
          rw [if_pos hid]
          exact mem_setAdd_self _ _
    · cases o with
      | none => exact ih _ _ _ it hrest hid hcard
      | some it2 =>
        show it.id ∈ (appendLoop seen frag n (some it2 :: rest)).1
        simp only [appendLoop]
        by_cases hc : it2.id ≠ "" ∧ it2.id ∈ seen
        · rw [if_pos hc]
          exact ih _ _ _ it hrest hid hcard
        · rw [if_neg hc]
          cases hcc : createFeedCard it2 with
          | none => exact ih _ _ _ it hrest hid hcard
          | some c => exact ih _ _ _ it hrest hid hcard

theorem appendLoop_noop :
    ∀ (items : List (Option Item)) (seen : List String) (frag : List Card)
      (n : Nat),
      (∀ it : Item, some it ∈ items → it.id ≠ "" ∧
        (createFeedCard it = none ∨ it.id ∈ seen)) →
      appendLoop seen frag n items = (seen, frag, n) := by
  intro items
  induction items with
  | nil => intro seen frag n _; rfl
  | cons o rest ih =>
    intro seen frag n hall
    cases o with
    | none =>
      exact ih seen frag n (fun it2 hm => hall it2 (List.mem_cons_of_mem _ hm))
    | some it =>
      obtain ⟨hid, hskip⟩ := hall it (List.mem_cons_self _ _)
      show appendLoop seen frag n (some it :: rest) = (seen, frag, n)
      simp only [appendLoop]
      rcases hskip with hnone | hseen
      · by_cases hc : it.id ≠ "" ∧ it.id ∈ seen
        · rw [if_pos hc]
          exact ih seen frag n (fun it2 hm => hall it2 (List.mem_cons_of_mem _ hm))
        · rw [if_neg hc, hnone]
          exact ih seen frag n (fun it2 hm => hall it2 (List.mem_cons_of_mem _ hm))
      · rw [if_pos ⟨hid, hseen⟩]
        exact ih seen frag n (fun it2 hm => hall it2 (List.mem_cons_of_mem _ hm))

theorem appendItems_fst_seenIds (m : MState) (l : List FeedNode)
    (items : List (Option Item)) :
    (appendItems m l items).1.seenIds = (appendLoop m.seenIds [] 0 items).1 := by
  unfold appendItems
  by_cases he : items.isEmpty
  · rw [if_pos he]
    have : items = [] := by
      cases items
      · rfl
      · simp at he
    rw [this]
    rfl
  · rw [if_neg he]
    rcases happ : appendLoop m.seenIds [] 0 items with ⟨s, f, k⟩
    cases f <;> rfl

/-- Claim C4 (amended): merging the same page a second time appends zero
additional entries and leaves the mode record and the displayed list
unchanged, provided every entry of the payload carries a non-empty id (an
entry without an id is never recorded in `seenIds`, so the dedup check
cannot skip it on a re-merge). -/
theorem appendItems_idempotent (m : MState) (listEl : List FeedNode)
    (items : List (Option Item))
    (hids : ∀ it : Item, some it ∈ items → it.id ≠ "") :
    appendItems (appendItems m listEl items).1 (appendItems m listEl items).2.1
        items =
      ((appendItems m listEl items).1, (appendItems m listEl items).2.1, 0) := by
  have hseen := appendItems_fst_seenIds m listEl items
  have hloop2 : appendLoop (appendItems m listEl items).1.seenIds [] 0 items =
      ((appendItems m listEl items).1.seenIds, [], 0) := by
    apply appendLoop_noop
    intro it hm
    refine ⟨hids it hm, ?_⟩
    by_cases hcard : createFeedCard it = none
    · exact Or.inl hcard
    · right
      rw [hseen]
      exact appendLoop_covers items m.seenIds [] 0 it hm (hids it hm) hcard
  conv_lhs => rw [appendItems]
  by_cases he : items.isEmpty
  · rw [if_pos he]
  · rw [if_neg he, hloop2]
    rfl

theorem appendItems_idempotent_witness :
    appendItems (appendItems modeA [FeedNode.card cardA1] [some itemA2]).1
        (appendItems modeA [FeedNode.card cardA1] [some itemA2]).2.1
        [some itemA2] =
      ((appendItems modeA [FeedNode.card cardA1] [some itemA2]).1,
        (appendItems modeA [FeedNode.card cardA1] [some itemA2]).2.1, 0) :=
  appendItems_idempotent modeA [FeedNode.card cardA1] [some itemA2]
    (by
      intro it h
      simp at h
      subst h
      decide)

/-- Counterexample to claim C4 as stated: a payload entry with no id is
appended again on a second merge of the same page — nothing records it in
`seenIds`, so the second merge appends one entry, not zero. -/
theorem appendItems_no_id_reappends :
    (appendItems modeA [FeedNode.card cardA1] [some itemNoId]).2.2 = 1 ∧
    (appendItems (appendItems modeA [FeedNode.card cardA1] [some itemNoId]).1
      (appendItems modeA [FeedNode.card cardA1] [some itemNoId]).2.1
      [some itemNoId]).2.2 = 1 := by
  decide

theorem mem_of_getMode {st : FeedState} {mid : String} {m : MState}
    (h : getMode st mid = some m) : m ∈ st.modes :=
  List.mem_of_find?_eq_some h

theorem mem_setMode {st : FeedState} {mm x : MState}
    (hx : x ∈ (setMode st mm).modes) : x = mm ∨ x ∈ st.modes := by
  unfold setMode at hx
  obtain ⟨y, hy, hxy⟩ := List.mem_map.mp hx
  by_cases hid : y.id = mm.id
  · rw [if_pos hid] at hxy
    exact Or.inl hxy.symm
  · rw [if_neg hid] at hxy
    exact Or.inr (hxy ▸ hy)

theorem appendItems_fst_id (m : MState) (l : List FeedNode)
    (items : List (Option Item)) : (appendItems m l items).1.id = m.id := by
  unfold appendItems
  by_cases he : items.isEmpty
  · rw [if_pos he]
  · rw [if_neg he]
    rcases appendLoop m.seenIds [] 0 items with ⟨s, f, k⟩
    cases f <;> rfl

theorem loadPageSuccess_invariant (m : MState) (l : List FeedNode) (n : Int)
    (p : Payload) :
    ((loadPageSuccess m l n p).1.nextPage = "" →
      (loadPageSuccess m l n p).1.done = true) ∧
    (loadPageSuccess m l n p).1.id = m.id := by
  unfold loadPageSuccess
  rcases happ : appendItems m l p.items with ⟨m1, l2, k⟩
  have hid : m1.id = m.id := by
    have h0 := appendItems_fst_id m l p.items
    rw [happ] at h0
    exact h0
  constructor
  · intro hnp
    dsimp only at hnp ⊢
    rw [if_pos hnp]
  · exact hid

theorem loadPageStart_inv (st : FeedState) (mid : String) (n : Int)
    (hinv : ExhaustedDone st) : ExhaustedDone (loadPageStart st mid n).1 := by
  unfold loadPageStart
  cases hg : getMode st mid with
  | none => exact hinv
  | some m =>
    dsimp only
    by_cases hurl :
        (if m.baseHref ≠ "" then clientPageHref m.baseHref n else m.nextPage) = ""
    · rw [if_pos hurl]
      intro x hx
      rcases mem_setMode hx with hx1 | hx2
      · subst hx1
        intro
        rfl
      · exact hinv x hx2
    · rw [if_neg hurl]
      intro x hx
      rcases mem_setMode hx with hx1 | hx2
      · subst hx1
        exact hinv m (mem_of_getMode hg)
      · exact hinv x hx2

/-- Claim C6 (amended): every client transition that empties a mode's
`nextPage` also marks the mode done (the `ExhaustedDone` invariant is
preserved by activation, the fetch trigger, and fetch completion); for a
done active mode, the fetch trigger `queueLoad` produces no network request
and no state change at all; a fetch completion that leaves (or finds) the
mode done disconnects the intersection observer, as does activating a done
mode — the observer is disarmed, not merely ignored.  (Activating a done
mode is not a no-op on the record, however: it rebuilds `seenIds` and
`savedFragment` from the displayed markup — see the counterexample.) -/
theorem done_mode_terminal :
    (∀ (st : FeedState) (mid : String) (m : MState),
      st.activeModeId = some mid → getMode st mid = some m → m.done = true →
      queueLoad st = (st, none)) ∧
    (∀ (st : FeedState) (mid : String) (n : Int) (res : FetchResult)
      (m m' : MState),
      getMode st mid = some m →
      getMode (loadPageFinish st mid n res) mid = some m' →
      m'.done = true → (loadPageFinish st mid n res).observing = false) ∧
    (∀ (st : FeedState) (mid : String) (m : MState),
      mid ≠ "" → getMode st mid = some m → st.activeModeId ≠ some mid →
      m.done = true → (activateMode st mid).observing = false) ∧
    (∀ st : FeedState, ExhaustedDone st →
      (∀ mid : String, ExhaustedDone (activateMode st mid)) ∧
      ExhaustedDone (queueLoad st).1 ∧
      (∀ (mid : String) (n : Int) (res : FetchResult),
        ExhaustedDone (loadPageFinish st mid n res))) := by
  refine ⟨?_, ?_, ?_, ?_⟩
  · exact fun st mid m hact h hdone => queueLoad_done_noop st mid m hact h hdone
  · intro st mid n res m m' h h2 hdone
    cases res with
    | failure =>
      have hdefF : loadPageFinish st mid n .failure =
          { setMode st
              { m with statusMessage := loadErrorMessage, isLoading := false }
            with observing := if m.done then false else st.observing } := by
        unfold loadPageFinish
        rw [h]
      have hg2 : getMode (loadPageFinish st mid n .failure) mid =
          some { m with statusMessage := loadErrorMessage, isLoading := false } := by
        rw [hdefF]
        show getMode (setMode st
          { m with statusMessage := loadErrorMessage, isLoading := false }) mid = _
        have hid0 : m.id = mid := getMode_id h
        exact getMode_setMode st mid m
          { m with statusMessage := loadErrorMessage, isLoading := false } h hid0
      have hm' : m' =
          { m with statusMessage := loadErrorMessage, isLoading := false } :=
        Option.some.inj (h2.symm.trans hg2)
      have hmd : m.done = true := by
        have := hdone
        rw [hm'] at this
        exact this
      rw [hdefF]
      show (if m.done then false else st.observing) = false
      rw [if_pos hmd]
    | success p =>
      rcases hls : loadPageSuccess m st.listEl n p with ⟨m3, l2, k⟩
      have hdefF : loadPageFinish st mid n (.success p) =
          { setMode { st with listEl := l2 } m3 with
            observing := if m3.done then false
              else (!m3.done && m3.nextPage ≠ "") } := by
        unfold loadPageFinish
        rw [h]
        dsimp only
        rw [hls]
      have hid3 : m3.id = m.id := by
        have h0 := (loadPageSuccess_invariant m st.listEl n p).2
        rw [hls] at h0
        exact h0
      have hg2 : getMode (loadPageFinish st mid n (.success p)) mid = some m3 := by
        rw [hdefF]
        show getMode (setMode { st with listEl := l2 } m3) mid = _
        exact getMode_setMode { st with listEl := l2 } mid m m3 h
          (hid3.trans (getMode_id h))
      have hm' : m' = m3 := Option.some.inj (h2.symm.trans hg2)
      have hmd : m3.done = true := by
        rw [← hm']
        exact hdone
      rw [hdefF]
      show (if m3.done then false else (!m3.done && m3.nextPage ≠ "")) = false
      rw [if_pos hmd]
  · intro st mid m hmid h hact hdone
    unfold activateMode
    rw [if_neg hmid, h]
    dsimp only
    rw [if_neg hact]
    show (!({ m with
        seenIds := collectSeenIds (if m.savedHtml.isEmpty
          then [FeedNode.emptyNotice m.empty] else m.savedHtml)
        savedHtml := (if m.savedHtml.isEmpty
          then [FeedNode.emptyNotice m.empty] else m.savedHtml)
        statusMessage := "" } : MState).done &&
      decide (¬({ m with
        seenIds := collectSeenIds (if m.savedHtml.isEmpty
          then [FeedNode.emptyNotice m.empty] else m.savedHtml)
        savedHtml := (if m.savedHtml.isEmpty
          then [FeedNode.emptyNotice m.empty] else m.savedHtml)
        statusMessage := "" } : MState).nextPage = "")) = false
    simp [hdone]
  · intro st hinv
    refine ⟨?_, ?_, ?_⟩
    · intro mid
      unfold activateMode
      by_cases hmid : mid = ""
      · rw [if_pos hmid]
        exact hinv
      · rw [if_neg hmid]
        cases hg : getMode st mid with
        | none => exact hinv
        | some m =>
          dsimp only
          by_cases hact : st.activeModeId = some mid
          · rw [if_pos hact]
            exact hinv
          · rw [if_neg hact]
            rcases hado : st.activeModeId with _ | prev
            · dsimp only
              intro x hx
              rcases mem_setMode hx with hx1 | hx2
              · subst hx1
                exact hinv m (mem_of_getMode hg)
              · exact hinv x hx2
            · dsimp only
              cases hgp : getMode st prev with
              | none =>
                intro x hx
                rcases mem_setMode hx with hx1 | hx2
                · subst hx1
                  exact hinv m (mem_of_getMode hg)
                · exact hinv x hx2
              | some pm =>
                intro x hx
                rcases mem_setMode hx with hx1 | hx2
                · subst hx1
                  exact hinv m (mem_of_getMode hg)
                · rcases mem_setMode hx2 with hx3 | hx4
                  · subst hx3
                    exact hinv pm (mem_of_getMode hgp)
                  · exact hinv x hx4
    · unfold queueLoad
      rcases hado : st.activeModeId with _ | aid
      · exact hinv
      · dsimp only
        cases hg : getMode st aid with
        | none => exact hinv
        | some m =>
          dsimp only
          by_cases hld : (m.isLoading || m.done) = true
          · rw [if_pos hld]
            exact hinv
          · rw [if_neg hld]
            by_cases hguard : m.totalPages ≠ 0 ∧ m.totalPages < m.currentPage + 1
            · rw [if_pos hguard]
              intro x hx
              rcases mem_setMode hx with hx1 | hx2
              · subst hx1
                intro
                rfl
              · exact hinv x hx2
            · rw [if_neg hguard]
              rcases hstart : loadPageStart st aid (m.currentPage + 1) with ⟨st2, req⟩
              have hinv2 : ExhaustedDone st2 := by
                have h0 := loadPageStart_inv st aid (m.currentPage + 1) hinv
                rw [hstart] at h0
                exact h0
              cases req with
              | none => exact hinv2
              | some url => exact hinv2
    · intro mid n res
      cases hg : getMode st mid with
      | none =>
        unfold loadPageFinish
        rw [hg]
        exact hinv
      | some m =>
        cases res with
        | failure =>
          unfold loadPageFinish
          rw [hg]
          intro x hx
          rcases mem_setMode hx with hx1 | hx2
          · subst hx1
            exact hinv m (mem_of_getMode hg)
          · exact hinv x hx2
        | success p =>
          rcases hls : loadPageSuccess m st.listEl n p with ⟨m3, l2, k⟩
          unfold loadPageFinish
          rw [hg]
          dsimp only
          rw [hls]
          intro x hx
          rcases mem_setMode hx with hx1 | hx2
          · subst hx1
            have h0 := (loadPageSuccess_invariant m st.listEl n p).1
            rw [hls] at h0
            exact h0
          · exact hinv x hx2

theorem done_mode_terminal_witness :
    queueLoad stB = (stB, none) ∧
    (activateMode st0 "b").observing = false ∧
    ExhaustedDone (queueLoad st0).1 := by
  refine ⟨?_, ?_, ?_⟩
  · exact done_mode_terminal.1 stB "b" modeB (by decide) (by decide) (by decide)
  · exact done_mode_terminal.2.2.1 st0 "b" modeB (by decide) (by decide)
      (by decide) (by decide)
  · exact (done_mode_terminal.2.2.2 st0 (by intro x hx; fin_cases hx <;> decide)).2.1

/-- Counterexample to claim C6 as stated: mode `b` is done (its `nextPage`
is empty), yet activating it is not free of state changes — the activation
rebuilds the mode's `seenIds` from the displayed markup, changing it from
the empty set to the set of displayed ids. -/
theorem activateMode_done_changes_state :
    modeB.done = true ∧ modeB.nextPage = "" ∧ modeB.seenIds = [] ∧
    (getMode (activateMode st0 "b") "b").map MState.seenIds = some ["b1"] := by
  decide

/-- Claim C10 (amended): at initialization a mode is marked done iff its
embedded `nextPage` is empty or whitespace and additionally either
`totalPages == 0`, or `totalPages > 0` with `currentPage > 0` and
`currentPage >= totalPages`.  This coincides with the claimed condition
(which omits the `totalPages > 0` conjunct) whenever `totalPages >= 0`; and
an empty `nextPage` alone, with `0 < currentPage < totalPages`, leaves the
mode not done. -/
theorem initModeState_done_iff (cfg : ModeConfig) (mk : List FeedNode) :
    ((initModeState cfg mk).done = true ↔
      ((cfg.nextPage = "" ∨ isBlank cfg.nextPage = true) ∧
        (cfg.totalPages = 0 ∨
          (0 < cfg.currentPage ∧ 0 < cfg.totalPages ∧
            cfg.totalPages ≤ cfg.currentPage)))) ∧
    (0 ≤ cfg.totalPages →
      (initModeState cfg mk).done = claimedInitDone cfg) ∧
    (isBlank cfg.nextPage = true → 0 < cfg.currentPage →
      cfg.currentPage < cfg.totalPages → (initModeState cfg mk).done = false) := by
  have hdone : (initModeState cfg mk).done =
      ((cfg.nextPage == "" || isBlank cfg.nextPage) &&
        (cfg.totalPages == 0 ||
          (decide (0 < cfg.currentPage) && decide (0 < cfg.totalPages) &&
            decide (cfg.totalPages ≤ cfg.currentPage)))) := rfl
  refine ⟨?_, ?_, ?_⟩
  · rw [hdone]
    simp only [Bool.and_eq_true, Bool.or_eq_true, decide_eq_true_eq, beq_iff_eq,
      and_assoc]
  · intro hnn
    rw [hdone]
    unfold claimedInitDone
    by_cases h0 : cfg.totalPages = 0
    · simp [h0]
    · have hpos : (0 : Int) < cfg.totalPages := lt_of_le_of_ne hnn (Ne.symm h0)
      simp [h0, hpos]
  · intro hb hcp hlt
    rw [hdone]
    have h1 : decide (cfg.totalPages ≤ cfg.currentPage) = false := by
      simp
      omega
    have h2 : (cfg.totalPages == 0) = false := by
      simp
      omega
    simp [h1, h2]

theorem initModeState_done_iff_witness :
    (initModeState cfgMid []).done = false ∧ 0 ≤ cfgMid.totalPages ∧
    (initModeState cfgMid []).done = claimedInitDone cfgMid := by
  have h := initModeState_done_iff cfgMid []
  exact ⟨h.2.2 (by decide) (by decide) (by decide), by decide, h.2.1 (by decide)⟩

/-- Counterexample to claim C10 as stated: with a blank `nextPage`,
`totalPages = -1` and `currentPage = 1`, the claimed condition holds
(`totalPages` is not 0, `currentPage > 0`, `currentPage >= totalPages`),
but the code leaves the mode not done, because it additionally requires
`totalPages > 0`. -/
theorem initDone_negative_totalPages_counterexample :
    claimedInitDone cfgNeg = true ∧ (initModeState cfgNeg []).done = false := by
  decide

/-- Claim C3 is violated by the code: a fetch for mode `a` is started
(request for page 2 issued), the user activates mode `b` (the shared list
now shows the card of `b`), and then the fetch for the deactivated mode `a`
completes.  `appendItems` mutates the shared displayed list without
checking which mode is active: the card of `a` is appended behind the card
of `b` while `b` is the active mode, and the polluted markup (including the
card of `b`) is saved as mode `a`'s fragment. -/
theorem staleMerge_clobbers_active_display :
    (queueLoad st0).2 = some ("/assets/feed/a/page-2.json", 2) ∧
    (activateMode (queueLoad st0).1 "b").activeModeId = some "b" ∧
    (activateMode (queueLoad st0).1 "b").listEl = [FeedNode.card cardB1] ∧
    (loadPageFinish (activateMode (queueLoad st0).1 "b") "a" 2
        (.success payloadA2)).activeModeId = some "b" ∧
    (loadPageFinish (activateMode (queueLoad st0).1 "b") "a" 2
        (.success payloadA2)).listEl =
      [FeedNode.card cardB1, FeedNode.card cardA2] ∧
    (getMode (loadPageFinish (activateMode (queueLoad st0).1 "b") "a" 2
        (.success payloadA2)) "a").map MState.savedHtml =
      some [FeedNode.card cardB1, FeedNode.card cardA2] := by
  decide

end Site
